import Mathlib

/- Verification development for the trippy-tracker repository (src/server.mjs).
The source file contains two variants of the tracker sharing one conceptual
model: a flat-file variant (an express app appending JSON lines to
events.jsonl) and a sqlite variant (an express app inserting rows into
clicks/opens tables).  The definitions below are a shallow embedding of the
functions and request handlers of both variants; machine 32-bit arithmetic is
modelled on Nat with explicit reduction modulo 2^32. -/

set_option maxRecDepth 20000

/- SHA-256, the digest used by both variants via crypto.createHash("sha256").
Words are Nat values kept below 2^32. -/

/-- Reduce modulo 2^32: the 32-bit word truncation used throughout SHA-256. -/
def w32 (x : Nat) : Nat := x % 4294967296

/-- Rotate a 32-bit word right by n bits. -/
def rotr32 (n x : Nat) : Nat := w32 ((x >>> n) ||| (x <<< (32 - n)))

def bigSig0 (x : Nat) : Nat := rotr32 2 x ^^^ rotr32 13 x ^^^ rotr32 22 x

def bigSig1 (x : Nat) : Nat := rotr32 6 x ^^^ rotr32 11 x ^^^ rotr32 25 x

def smlSig0 (x : Nat) : Nat := rotr32 7 x ^^^ rotr32 18 x ^^^ (x >>> 3)

def smlSig1 (x : Nat) : Nat := rotr32 17 x ^^^ rotr32 19 x ^^^ (x >>> 10)

/-- SHA-256 choose function; complement of x is taken inside 32 bits. -/
def chF (x y z : Nat) : Nat := (x &&& y) ^^^ ((x ^^^ 4294967295) &&& z)

/-- SHA-256 majority function. -/
def majF (x y z : Nat) : Nat := (x &&& y) ^^^ (x &&& z) ^^^ (y &&& z)

/-- The 64 SHA-256 round constants of FIPS 180-4, written in decimal. -/
def shaK : List Nat :=
  [1116352408, 1899447441, 3049323471, 3921009573, 961987163,
   1508970993, 2453635748, 2870763221, 3624381080, 310598401,
   607225278, 1426881987, 1925078388, 2162078206, 2614888103,
   3248222580, 3835390401, 4022224774, 264347078, 604807628,
   770255983, 1249150122, 1555081692, 1996064986, 2554220882,
   2821834349, 2952996808, 3210313671, 3336571891, 3584528711,
   113926993, 338241895, 666307205, 773529912, 1294757372,
   1396182291, 1695183700, 1986661051, 2177026350, 2456956037,
   2730485921, 2820302411, 3259730800, 3345764771, 3516065817,
   3600352804, 4094571909, 275423344, 430227734, 506948616,
   659060556, 883997877, 958139571, 1322822218, 1537002063,
   1747873779, 1955562222, 2024104815, 2227730452, 2361852424,
   2428436474, 2756734187, 3204031479, 3329325298]

/-- The eight SHA-256 initial hash words, written in decimal. -/
def shaH0 : List Nat :=
  [1779033703, 3144134277, 1013904242, 2773480762,
   1359893119, 2600822924, 528734635, 1541459225]

/-- The eight working variables of the SHA-256 compression loop. -/
structure Sha256State where
  a : Nat
  b : Nat
  c : Nat
  d : Nat
  e : Nat
  f : Nat
  g : Nat
  h : Nat
deriving Repr, DecidableEq

/-- One round of the SHA-256 compression loop. -/
def shaRound (st : Sha256State) (k w : Nat) : Sha256State :=
  let t1 := w32 (st.h + bigSig1 st.e + chF st.e st.f st.g + k + w)
  let t2 := w32 (bigSig0 st.a + majF st.a st.b st.c)
  { a := w32 (t1 + t2), b := st.a, c := st.b, d := st.c,
    e := w32 (st.d + t1), f := st.e, g := st.f, h := st.g }

/-- Extend the 16 message words of a chunk to the 64-word schedule. -/
def extendSchedule (ws : Array Nat) : Array Nat :=
  (List.range 48).foldl (fun a i =>
    let j := i + 16
    a.push (w32 (smlSig1 (a.getD (j - 2) 0) + a.getD (j - 7) 0 +
                 smlSig0 (a.getD (j - 15) 0) + a.getD (j - 16) 0))) ws

/-- Compress one 64-byte chunk into the running hash (a list of 8 words). -/
def compressChunk (hs : List Nat) (chunk : List Nat) : List Nat :=
  let ws0 := (List.range 16).map (fun i =>
    chunk.getD (4 * i) 0 * 16777216 + chunk.getD (4 * i + 1) 0 * 65536 +
    chunk.getD (4 * i + 2) 0 * 256 + chunk.getD (4 * i + 3) 0)
  let ws := extendSchedule ws0.toArray
  let init : Sha256State :=
    { a := hs.getD 0 0, b := hs.getD 1 0, c := hs.getD 2 0, d := hs.getD 3 0,
      e := hs.getD 4 0, f := hs.getD 5 0, g := hs.getD 6 0, h := hs.getD 7 0 }
  let fin := (List.range 64).foldl (fun st i => shaRound st (shaK.getD i 0) (ws.getD i 0)) init
  [w32 (hs.getD 0 0 + fin.a), w32 (hs.getD 1 0 + fin.b), w32 (hs.getD 2 0 + fin.c),
   w32 (hs.getD 3 0 + fin.d), w32 (hs.getD 4 0 + fin.e), w32 (hs.getD 5 0 + fin.f),
   w32 (hs.getD 6 0 + fin.g), w32 (hs.getD 7 0 + fin.h)]

/-- UTF-8 encoding of one code point, as node's hash update applies to strings. -/
def utf8Encode (c : Char) : List Nat :=
  let n := c.toNat
  if n < 128 then [n]
  else if n < 2048 then [192 + n / 64, 128 + n % 64]
  else if n < 65536 then [224 + n / 4096, 128 + n / 64 % 64, 128 + n % 64]
  else [240 + n / 262144, 128 + n / 4096 % 64, 128 + n / 64 % 64, 128 + n % 64]

/-- The byte sequence of a string under UTF-8. -/
def strBytes (s : String) : List Nat := (s.toList.map utf8Encode).flatten

/-- SHA-256 padding: a 0x80 byte, zeros to 56 mod 64, and the 64-bit bit length. -/
def padMessage (bytes : List Nat) : List Nat :=
  let len := bytes.length
  let zeros := (119 - len % 64) % 64
  bytes ++ 128 :: List.replicate zeros 0 ++
    (List.range 8).map (fun i => len * 8 / 2 ^ (8 * (7 - i)) % 256)

/-- Cut a byte list into successive 64-byte chunks; the fuel argument only
bounds the recursion and is always large enough below. -/
def chunksAux : Nat → List Nat → List (List Nat)
  | 0, _ => []
  | _, [] => []
  | fuel + 1, x :: xs => (x :: xs).take 64 :: chunksAux fuel ((x :: xs).drop 64)

def chunks64 (l : List Nat) : List (List Nat) := chunksAux l.length l

/-- The eight 32-bit words of the SHA-256 digest of a string. -/
def sha256words (s : String) : List Nat :=
  (chunks64 (padMessage (strBytes s))).foldl compressChunk shaH0

/-- Lower-case hexadecimal digit, as node's digest("hex") produces. -/
def hexDigit (n : Nat) : Char := if n < 10 then Char.ofNat (48 + n) else Char.ofNat (87 + n)

/-- The eight hex characters of one 32-bit word, most significant first. -/
def wordHex (w : Nat) : List Char := (List.range 8).map (fun i => hexDigit (w / 2 ^ (4 * (7 - i)) % 16))

/-- The 64-character lower-case hex SHA-256 digest of a string, the model of
crypto.createHash("sha256").update(s).digest("hex"). -/
def sha256hex (s : String) : String := String.mk (((sha256words s).map wordHex).flatten)

/- JS string primitives used by the handlers, modelled over List Char. -/

/-- Model of JS s.slice(0, n): the first n characters of a string. -/
def sliceTo (s : String) (n : Nat) : String := String.mk (s.toList.take n)

/-- Whether the first list is an initial segment of the second. -/
def startsWithList : List Char → List Char → Bool
  | [], _ => true
  | _ :: _, [] => false
  | a :: as, b :: bs => a = b && startsWithList as bs

/-- Index of the first occurrence of needle in hay, if any. -/
def firstIdx (needle : List Char) : List Char → Option Nat
  | [] => if startsWithList needle [] then some 0 else none
  | c :: cs =>
    if startsWithList needle (c :: cs) then some 0
    else (firstIdx needle cs).map (· + 1)

/-- Model of JS hay.indexOf(needle): the index of the first occurrence of
needle, or -1 when needle does not occur. -/
def indexOfStr (hay needle : String) : Int :=
  match firstIdx needle.toList hay.toList with
  | some i => Int.ofNat i
  | none => -1

/-- Model of JS s.split("\n") on the character list: splitting at every
newline, keeping empty segments, with [""] for the empty string. -/
def splitNlAux : List Char → List (List Char)
  | [] => [[]]
  | c :: cs =>
    if c = '\n' then [] :: splitNlAux cs
    else
      match splitNlAux cs with
      | [] => [[c]]
      | r :: rs => (c :: r) :: rs

/-- Model of JS data.split("\n") at the String level. -/
def splitLines (s : String) : List String := (splitNlAux s.toList).map String.mk

/-- Join character lists with a newline between consecutive elements. -/
def joinChars : List (List Char) → List Char
  | [] => []
  | [l] => l
  | l :: l' :: ls => l ++ '\n' :: joinChars (l' :: ls)

/-- Join lines with newline separators, the inverse of splitLines on
newline-free lines. -/
def joinLines (ls : List String) : String := String.mk (joinChars (ls.map String.toList))

/- The data model shared by both variants. -/

/-- One stored tracking event, the JSON object appended to events.jsonl by the
flat-file variant: type, lead_id, campaign, industry, ts, user_agent, ip_hash. -/
structure Event where
  type : String
  lead_id : String
  campaign : String
  industry : String
  ts : String
  user_agent : String
  ip_hash : String
deriving Repr, DecidableEq

/-- The HTTP responses the handlers produce.  A redirect keeps its query
parameters structured as key/value pairs rather than URL-encoded text. -/
inductive HttpResponse where
  | redirect (status : Nat) (base : String) (params : List (String × String))
  | text (status : Nat) (body : String)
  | image (status : Nat) (contentType : String) (cacheControl : String)
  | noContent (status : Nat)
deriving Repr, DecidableEq

/-- The HTTP status code of a response. -/
def HttpResponse.statusOf : HttpResponse → Nat
  | HttpResponse.redirect s _ _ => s
  | HttpResponse.text s _ => s
  | HttpResponse.image s _ _ => s
  | HttpResponse.noContent s => s

/-- One row of the flat-file stats tables: a campaign key with its total event
count and its distinct-lead count. -/
structure Row where
  campaign : String
  total : Nat
  unique : Nat
deriving Repr, DecidableEq

/-- Whether an Except value carries a result rather than an error. -/
def isOkE {ε α : Type} : Except ε α → Bool
  | Except.ok _ => true
  | Except.error _ => false

/- The flat-file variant (first half of src/server.mjs). -/

namespace FlatFile

/-- Model of the flat-file ipHash: the hex SHA-256 of the client IP string,
cut to its first 16 characters.  The surrounding JS try/catch (returning ""
on a digest failure) is modelled separately by ipHashGuarded, since the
embedded digest is total. -/
def ipHash (ip : String) : String := sliceTo (sha256hex ip) 16

/-- The flat-file ipHash with the digest call abstracted, exposing the JS
try/catch: a digest failure is caught and the empty string returned. -/
def ipHashGuarded (digest : String → Except String String) (ip : String) : String :=
  match digest ip with
  | Except.ok d => sliceTo d 16
  | Except.error _ => ""

/-- Model of pickIndustryFromCampaign: the prefix of campaign before the first
occurrence of "_v" when that occurrence has positive index, else "". -/
def pickIndustryFromCampaign (campaign : String) : String :=
  let idx := indexOfStr campaign "_v"
  if idx > 0 then sliceTo campaign idx.toNat else ""

/-- The query parameters the flat-file click redirect sets, in order: lid,
utm_campaign only when the campaign is nonempty, utm_source, utm_medium, c. -/
def redirectParams (leadId campaign : String) : List (String × String) :=
  ("lid", leadId) ::
    (if campaign = "" then [] else [("utm_campaign", campaign)]) ++
    [("utm_source", "coldemail"), ("utm_medium", "email"), ("c", campaign)]

/-- Model of the flat-file GET /r/:lead_id handler.  The appendResult argument
stands for the outcome of appendEvent; the JS wraps that await in try/catch
with an empty handler, so the outcome is discarded and the response is built
unconditionally.  Returns the event passed to appendEvent and the response. -/
def handleClick (landingBase leadId campaign ua ip ts : String)
    (appendResult : Except String Unit) : Event × HttpResponse :=
  let ev : Event :=
    { type := "click", lead_id := leadId, campaign := campaign,
      industry := pickIndustryFromCampaign campaign, ts := ts,
      user_agent := ua, ip_hash := ipHash ip }
  match appendResult with
  | _ =>
    (ev, if landingBase = "" then HttpResponse.text 500 "LANDING_BASE not configured"
         else HttpResponse.redirect 302 landingBase (redirectParams leadId campaign))

/-- Model of the flat-file GET /o/:lead_id.png handler: the append outcome is
discarded and a 1x1 GIF with cache-disabling headers is always returned. -/
def handleOpen (leadId campaign ua ip ts : String)
    (appendResult : Except String Unit) : Event × HttpResponse :=
  let ev : Event :=
    { type := "open", lead_id := leadId, campaign := campaign,
      industry := pickIndustryFromCampaign campaign, ts := ts,
      user_agent := ua, ip_hash := ipHash ip }
  match appendResult with
  | _ =>
    (ev, HttpResponse.image 200 "image/gif" "no-store, no-cache, must-revalidate, proxy-revalidate")

/-- Model of the flat-file GET /conv handler: the append outcome is discarded
and an empty 204 is always returned; note the stored type string is "conv". -/
def handleConv (leadId campaign ua ip ts : String)
    (appendResult : Except String Unit) : Event × HttpResponse :=
  let ev : Event :=
    { type := "conv", lead_id := leadId, campaign := campaign,
      industry := pickIndustryFromCampaign campaign, ts := ts,
      user_agent := ua, ip_hash := ipHash ip }
  match appendResult with
  | _ => (ev, HttpResponse.noContent 204)

/-- Read failures distinguished by readEvents: a missing file (ENOENT) versus
any other I/O error. -/
inductive ReadErr where
  | enoent : ReadErr
  | other : String → ReadErr
deriving Repr, DecidableEq

/-- The line pipeline of readEvents: split lines are filtered for truthiness
(dropping empty lines), each is parsed, and unparseable or falsy results are
dropped.  The parse argument models JSON.parse wrapped in try/catch composed
with the truthiness filter on its result. -/
def parseLines (parse : String → Option Event) (lines : List String) : List Event :=
  (lines.filter (fun l => l ≠ "")).filterMap parse

/-- Model of readEvents: the file read either yields the file content or an
error; ENOENT becomes the empty list, any other error is re-raised, and
content is split on newlines and parsed line by line. -/
def readEvents (parse : String → Option Event)
    (file : Except ReadErr String) : Except ReadErr (List Event) :=
  match file with
  | Except.ok data => Except.ok (parseLines parse (splitLines data))
  | Except.error ReadErr.enoent => Except.ok []
  | Except.error e => Except.error e

/-- The grouping key of summarize: e.campaign || "(none)", i.e. the campaign
string with the empty string replaced by the placeholder. -/
def eventKey (e : Event) : String := if e.campaign = "" then "(none)" else e.campaign

/-- First-occurrence key order, modelling the creation order of the keys of
totalsByCampaign (and hence Object.keys) as events are folded in. -/
def objectKeys (l : List String) : List String :=
  l.foldl (fun acc k => if k ∈ acc then acc else acc ++ [k]) []

/-- totalsByCampaign at key c after the summarize loop: one increment per
event whose key is c. -/
def totalFor (list : List Event) (c : String) : Nat :=
  (list.filter (fun e => eventKey e = c)).length

/-- The lead_id values the summarize loop adds to the set at key c. -/
def leadsFor (list : List Event) (c : String) : List String :=
  (list.filter (fun e => eventKey e = c)).map Event.lead_id

/-- uniqueByCampaign[c].size after the summarize loop: the number of distinct
lead_id values among the events with key c. -/
def uniqueFor (list : List Event) (c : String) : Nat :=
  (leadsFor list c).toFinset.card

/-- Model of summarize: keys in first-occurrence order, stably sorted by
descending total, each mapped to its row of total and unique counts. -/
def summarize (list : List Event) : List Row :=
  let keys := objectKeys (list.map eventKey)
  let sorted := List.insertionSort (fun a b => totalFor list b ≤ totalFor list a) keys
  sorted.map (fun c => { campaign := c, total := totalFor list c, unique := uniqueFor list c })

/-- Model of the GET /stats handler's data: readEvents (whose error, if any,
propagates out of the handler), then one summarize per event type, using the
type strings the /stats code filters on. -/
def statsData (parse : String → Option Event)
    (file : Except ReadErr String) : Except ReadErr (List Row × List Row × List Row) :=
  match readEvents parse file with
  | Except.error e => Except.error e
  | Except.ok events =>
    Except.ok (summarize (events.filter (fun e => e.type = "click")),
               summarize (events.filter (fun e => e.type = "open")),
               summarize (events.filter (fun e => e.type = "conv")))

end FlatFile

/- The sqlite variant (second half of src/server.mjs). -/

namespace Sqlite

/-- Model of the sqlite hashIp: the full 64-character hex SHA-256 of the IP
string, with no truncation and no try/catch around the digest call. -/
def hashIp (ip : String) : String := sha256hex ip

/-- Model of getIndustryFromCampaign: empty for a falsy campaign, the whole
campaign when "_" does not occur, else the prefix before the first "_". -/
def getIndustryFromCampaign (campaign : String) : String :=
  if campaign = "" then ""
  else
    let idx := indexOfStr campaign "_"
    if idx = -1 then campaign else sliceTo campaign idx.toNat

/-- One row inserted into the clicks or opens table (minus the autoincrement
id column). -/
structure InsertRow where
  lead_id : String
  campaign : String
  industry : String
  ts : String
  user_agent : String
  ip_hash : String
deriving Repr, DecidableEq

/-- Model of the sqlite GET /r/:lead_id handler.  The INSERT is awaited with
no try/catch, so a rejected insert propagates out of the handler and no
response is produced; on success the redirect goes to the landing base with
lid and utm_campaign only, or to /stats when no landing base is configured. -/
def handleClick (landingBase leadId campaign ua ip ts : String)
    (insertResult : Except String Unit) : Except String (InsertRow × HttpResponse) :=
  let row : InsertRow :=
    { lead_id := leadId, campaign := campaign,
      industry := getIndustryFromCampaign campaign, ts := ts,
      user_agent := ua, ip_hash := hashIp ip }
  match insertResult with
  | Except.error e => Except.error e
  | Except.ok _ =>
    Except.ok (row,
      if landingBase = "" then HttpResponse.redirect 302 "/stats" []
      else HttpResponse.redirect 302 landingBase [("lid", leadId), ("utm_campaign", campaign)])

/-- Model of the sqlite GET /o/:lead_id.png handler: an uncaught INSERT, then
a 1x1 PNG with cache-disabling headers. -/
def handleOpen (leadId campaign ua ip ts : String)
    (insertResult : Except String Unit) : Except String (InsertRow × HttpResponse) :=
  let row : InsertRow :=
    { lead_id := leadId, campaign := campaign,
      industry := getIndustryFromCampaign campaign, ts := ts,
      user_agent := ua, ip_hash := hashIp ip }
  match insertResult with
  | Except.error e => Except.error e
  | Except.ok _ =>
    Except.ok (row, HttpResponse.image 200 "image/png" "no-store, no-cache, must-revalidate, max-age=0")

end Sqlite

/- Definitions taken from the words of the claims, for comparison with the
code's definitions. -/

/-- Industry derivation exactly as claim C1 words it: the substring of s
before the first occurrence of the separator when one occurs, the empty
string when none occurs. -/
def claimedIndustry (sep s : String) : String :=
  match firstIdx sep.toList s.toList with
  | some i => sliceTo s i
  | none => ""

/-- The rule the sqlite code actually implements for a missing separator: the
substring before the first occurrence when one occurs, the whole string when
none occurs. -/
def claimedIndustryKeepWhole (sep s : String) : String :=
  match firstIdx sep.toList s.toList with
  | some i => sliceTo s i
  | none => s

/- Concrete fixtures used by witness theorems. -/

/-- A concrete event used only as a test fixture for witnesses. -/
def sampleEvent : Event :=
  { type := "click", lead_id := "L1", campaign := "a_v1", industry := "a",
    ts := "2026-01-01T00:00:00.000Z", user_agent := "UA", ip_hash := "0011223344556677" }

/-- A second concrete event fixture sharing sampleEvent's campaign but with a
distinct lead. -/
def sampleEventB : Event :=
  { type := "click", lead_id := "L2", campaign := "a_v1", industry := "a",
    ts := "2026-01-02T00:00:00.000Z", user_agent := "UA", ip_hash := "8899aabbccddeeff" }

/-- A concrete parser fixture: accepts exactly the line "good". -/
def sampleParse : String → Option Event :=
  fun l => if l = "good" then some sampleEvent else none

/- Helper lemmas. -/

theorem wordHex_length (w : Nat) : (wordHex w).length = 8 := by
  simp [wordHex]

theorem compressChunk_length (hs chunk : List Nat) : (compressChunk hs chunk).length = 8 := rfl

theorem foldl_compressChunk_length (cs : List (List Nat)) (hs : List Nat) (h : hs.length = 8) :
    (cs.foldl compressChunk hs).length = 8 := by
  induction cs generalizing hs with
  | nil => simpa using h
  | cons c cs ih => exact ih _ (compressChunk_length _ _)

theorem sha256words_length (s : String) : (sha256words s).length = 8 :=
  foldl_compressChunk_length _ _ rfl

theorem flatten_wordHex_length (ws : List Nat) :
    ((ws.map wordHex).flatten).length = 8 * ws.length := by
  induction ws with
  | nil => rfl
  | cons w ws ih =>
    simp only [List.map_cons, List.flatten_cons, List.length_append, wordHex_length,
      List.length_cons, ih]
    ring

/-- The hex SHA-256 digest always has 64 characters. -/
theorem sha256hex_length (s : String) : (sha256hex s).length = 64 := by
  show (((sha256words s).map wordHex).flatten).length = 64
  rw [flatten_wordHex_length, sha256words_length]

/-- The flat-file stored hash always has 16 characters. -/
theorem ipHash_length (ip : String) : (FlatFile.ipHash ip).length = 16 := by
  show ((sha256hex ip).toList.take 16).length = 16
  rw [List.length_take]
  have := sha256hex_length ip
  have hlen : (sha256hex ip).toList.length = 64 := this
  omega

/-- sliceTo returns at most n characters. -/
theorem sliceTo_length (s : String) (n : Nat) : (sliceTo s n).length = min n s.length := by
  show (s.toList.take n).length = min n s.length
  rw [List.length_take]
  rfl

theorem splitNlAux_no_newline (l : List Char) (h : '\n' ∉ l) : splitNlAux l = [l] := by
  induction l with
  | nil => rfl
  | cons c cs ih =>
    have hc : ¬ c = '\n' := fun e => h (e ▸ List.mem_cons_self c cs)
    have hcs : '\n' ∉ cs := fun m => h (List.mem_cons_of_mem _ m)
    simp [splitNlAux, hc, ih hcs]

theorem splitNlAux_append (l rest : List Char) (h : '\n' ∉ l) :
    splitNlAux (l ++ '\n' :: rest) = l :: splitNlAux rest := by
  induction l with
  | nil => simp [splitNlAux]
  | cons c cs ih =>
    have hc : ¬ c = '\n' := fun e => h (e ▸ List.mem_cons_self c cs)
    have hcs : '\n' ∉ cs := fun m => h (List.mem_cons_of_mem _ m)
    simp [splitNlAux, hc, ih hcs]

theorem splitNlAux_joinChars (css : List (List Char)) (hne : css ≠ [])
    (h : ∀ cs ∈ css, '\n' ∉ cs) : splitNlAux (joinChars css) = css := by
  induction css with
  | nil => exact absurd rfl hne
  | cons l ls ih =>
    cases ls with
    | nil => exact splitNlAux_no_newline l (h l (by simp))
    | cons l' ls' =>
      have hj : joinChars (l :: l' :: ls') = l ++ '\n' :: joinChars (l' :: ls') := rfl
      rw [hj, splitNlAux_append l _ (h l (by simp)),
        ih (by simp) (fun cs hcs => h cs (List.mem_cons_of_mem _ hcs))]

theorem splitLines_joinLines (ls : List String) (hne : ls ≠ [])
    (h : ∀ l ∈ ls, '\n' ∉ l.toList) : splitLines (joinLines ls) = ls := by
  have h2 : ∀ cs ∈ ls.map String.toList, '\n' ∉ cs := by
    intro cs hcs
    rcases List.mem_map.mp hcs with ⟨l, hl, rfl⟩
    exact h l hl
  have hne2 : ls.map String.toList ≠ [] := by
    intro e
    exact hne (List.map_eq_nil_iff.mp e)
  show (splitNlAux ((joinLines ls).toList)).map String.mk = ls
  have hj : (joinLines ls).toList = joinChars (ls.map String.toList) := rfl
  rw [hj, splitNlAux_joinChars _ hne2 h2, List.map_map]
  have hid : String.mk ∘ String.toList = id := by
    funext s
    cases s
    rfl
  rw [hid, List.map_id]

theorem mem_objectKeys_aux (l : List String) (acc : List String) (k : String) :
    k ∈ l.foldl (fun acc k => if k ∈ acc then acc else acc ++ [k]) acc ↔ k ∈ acc ∨ k ∈ l := by
  induction l generalizing acc with
  | nil => simp
  | cons a as ih =>
    simp only [List.foldl_cons]
    rw [ih]
    by_cases h : a ∈ acc
    · simp only [if_pos h, List.mem_cons]
      constructor
      · rintro (hk | hk)
        · exact Or.inl hk
        · exact Or.inr (Or.inr hk)
      · rintro (hk | hk | hk)
        · exact Or.inl hk
        · exact Or.inl (hk ▸ h)
        · exact Or.inr hk
    · simp only [if_neg h, List.mem_append, List.mem_singleton, List.mem_cons]
      tauto

/-- A key appears in objectKeys exactly when it appears in the input list. -/
theorem mem_objectKeys (l : List String) (k : String) : k ∈ FlatFile.objectKeys l ↔ k ∈ l := by
  unfold FlatFile.objectKeys
  rw [mem_objectKeys_aux]
  simp

/-- The rows of summarize are exactly the rows of the keys occurring among the
events, each carrying its total and unique counts. -/
theorem mem_summarize (list : List Event) (r : Row) :
    r ∈ FlatFile.summarize list ↔
      ∃ c, c ∈ list.map FlatFile.eventKey ∧
        r = { campaign := c, total := FlatFile.totalFor list c,
              unique := FlatFile.uniqueFor list c } := by
  constructor
  · intro hr
    rcases List.mem_map.mp hr with ⟨c, hc, hrc⟩
    have hc2 : c ∈ FlatFile.objectKeys (list.map FlatFile.eventKey) :=
      (List.mem_insertionSort _).mp hc
    exact ⟨c, (mem_objectKeys _ _).mp hc2, hrc.symm⟩
  · rintro ⟨c, hc, rfl⟩
    exact List.mem_map.mpr
      ⟨c, (List.mem_insertionSort _).mpr ((mem_objectKeys _ _).mpr hc), rfl⟩

theorem toFinset_perm {α : Type} [DecidableEq α] {l l' : List α} (h : l.Perm l') :
    l.toFinset = l'.toFinset := by
  ext a
  simp [List.mem_toFinset, h.mem_iff]

theorem totalFor_perm {l l' : List Event} (h : l.Perm l') (c : String) :
    FlatFile.totalFor l c = FlatFile.totalFor l' c :=
  (h.filter _).length_eq

theorem uniqueFor_perm {l l' : List Event} (h : l.Perm l') (c : String) :
    FlatFile.uniqueFor l c = FlatFile.uniqueFor l' c :=
  congrArg Finset.card (toFinset_perm ((h.filter _).map _))

theorem sliceTo_zero (s : String) : sliceTo s 0 = "" := rfl

/-- Sanity check of the digest embedding against the standard SHA-256 test
vector for "abc". -/
theorem sha256hex_abc :
    sha256hex "abc" = "ba7816bf8f01cfea414140de5dae2223b00361a396177a9cb410ff61f20015ad" := by
  decide

/- Claims. -/

/-- C1 (amended): the flat-file pickIndustryFromCampaign returns the prefix of
the campaign before the first occurrence of "_v" (the empty string when the
occurrence is at index 0 or absent), exactly the claimed rule; the sqlite
getIndustryFromCampaign splits on "_" instead and, contrary to the claim,
returns the WHOLE campaign string when no separator occurs. -/
theorem industry_derivation_amended (s : String) :
    FlatFile.pickIndustryFromCampaign s = claimedIndustry "_v" s ∧
    Sqlite.getIndustryFromCampaign s = claimedIndustryKeepWhole "_" s := by
  constructor
  · unfold FlatFile.pickIndustryFromCampaign claimedIndustry indexOfStr
    cases h : firstIdx "_v".toList s.toList with
    | none => simp [h]
    | some i =>
      cases i with
      | zero => simp [h, sliceTo_zero]
      | succ j => simp [h]
  · unfold Sqlite.getIndustryFromCampaign claimedIndustryKeepWhole indexOfStr
    by_cases hs : s = ""
    · subst hs
      decide
    · cases h : firstIdx "_".toList s.toList with
      | none => simp [h, hs]
      | some i => simp [h, hs]

/-- C1 counterexample: on the campaign "restaurants" (no separator present)
the sqlite variant returns "restaurants", not the empty string the claim
requires (under either separator reading). -/
theorem industry_derivation_claim_cex :
    Sqlite.getIndustryFromCampaign "restaurants" = "restaurants" ∧
    claimedIndustry "_" "restaurants" = "" ∧
    claimedIndustry "_v" "restaurants" = "" ∧
    ("restaurants" : String) ≠ "" := by
  refine ⟨?_, ?_, ?_, ?_⟩ <;> decide

/-- C2 (amended): in the flat-file variant every tracking handler's HTTP
response is the same whatever the append outcome (the try/catch swallows the
failure), while in the sqlite variant (which has no conversion endpoint) a
failed INSERT is not caught: it propagates out of the handler and no response
is produced. -/
theorem recording_failure_amended (lb l c ua ip ts e : String) (r : Except String Unit) :
    (FlatFile.handleClick lb l c ua ip ts r).2 =
      (FlatFile.handleClick lb l c ua ip ts (Except.ok ())).2 ∧
    (FlatFile.handleOpen l c ua ip ts r).2 =
      (FlatFile.handleOpen l c ua ip ts (Except.ok ())).2 ∧
    (FlatFile.handleConv l c ua ip ts r).2 =
      (FlatFile.handleConv l c ua ip ts (Except.ok ())).2 ∧
    Sqlite.handleClick lb l c ua ip ts (Except.error e) = Except.error e ∧
    Sqlite.handleOpen l c ua ip ts (Except.error e) = Except.error e :=
  ⟨rfl, rfl, rfl, rfl, rfl⟩

/-- C2 counterexample: a failed insert makes the sqlite click handler yield
an error instead of the HTTP response it yields on a successful write. -/
theorem recording_failure_claim_cex :
    isOkE (Sqlite.handleClick "https://example.com/land" "L1" "spring" "UA" "1.2.3.4" "T"
      (Except.error "disk full")) = false ∧
    isOkE (Sqlite.handleClick "https://example.com/land" "L1" "spring" "UA" "1.2.3.4" "T"
      (Except.ok ())) = true :=
  ⟨rfl, rfl⟩

/-- C3 (amended): with a configured landing base and a nonempty campaign, the
flat-file click handler responds 302 with query parameters lid, utm_campaign,
utm_source=coldemail, utm_medium=email and c; the sqlite click handler
responds 302 with only lid and utm_campaign. -/
theorem redirect_params_amended (lb l c ua ip ts : String) (r : Except String Unit)
    (hlb : lb ≠ "") (hc : c ≠ "") :
    (FlatFile.handleClick lb l c ua ip ts r).2 =
      HttpResponse.redirect 302 lb
        [("lid", l), ("utm_campaign", c), ("utm_source", "coldemail"),
         ("utm_medium", "email"), ("c", c)] ∧
    (Sqlite.handleClick lb l c ua ip ts (Except.ok ())).map Prod.snd =
      Except.ok (HttpResponse.redirect 302 lb [("lid", l), ("utm_campaign", c)]) := by
  constructor
  · simp [FlatFile.handleClick, FlatFile.redirectParams, hlb, hc]
  · simp [Sqlite.handleClick, hlb, Except.map]

/-- Witness for C3's amended theorem at concrete inputs. -/
theorem redirect_params_amended_witness :
    (FlatFile.handleClick "https://example.com/land" "lead7" "camp" "UA" "1.2.3.4" "T"
      (Except.ok ())).2 =
      HttpResponse.redirect 302 "https://example.com/land"
        [("lid", "lead7"), ("utm_campaign", "camp"), ("utm_source", "coldemail"),
         ("utm_medium", "email"), ("c", "camp")] ∧
    (Sqlite.handleClick "https://example.com/land" "lead7" "camp" "UA" "1.2.3.4" "T"
      (Except.ok ())).map Prod.snd =
      Except.ok (HttpResponse.redirect 302 "https://example.com/land"
        [("lid", "lead7"), ("utm_campaign", "camp")]) :=
  redirect_params_amended "https://example.com/land" "lead7" "camp" "UA" "1.2.3.4" "T"
    (Except.ok ()) (by decide) (by decide)

/-- C3 counterexample: the sqlite redirect parameters are exactly lid and
utm_campaign, and utm_source=coldemail is not among them, contrary to the
claim for that variant. -/
theorem redirect_params_claim_cex :
    (Sqlite.handleClick "https://example.com/land" "lead7" "camp" "UA" "1.2.3.4" "T"
      (Except.ok ())).map Prod.snd =
      Except.ok (HttpResponse.redirect 302 "https://example.com/land"
        [("lid", "lead7"), ("utm_campaign", "camp")]) ∧
    (("utm_source", "coldemail") : String × String) ∉
      [(("lid" : String), ("lead7" : String)), ("utm_campaign", "camp")] :=
  ⟨rfl, by decide⟩

/-- C4 (amended): with an empty landing base the flat-file click handler
responds 500 with an explanatory body, but the sqlite click handler instead
responds 302 redirecting to /stats. -/
theorem missing_landing_amended (l c ua ip ts : String) (r : Except String Unit) :
    (FlatFile.handleClick "" l c ua ip ts r).2 =
      HttpResponse.text 500 "LANDING_BASE not configured" ∧
    (Sqlite.handleClick "" l c ua ip ts (Except.ok ())).map Prod.snd =
      Except.ok (HttpResponse.redirect 302 "/stats" []) :=
  ⟨rfl, rfl⟩

/-- C4 counterexample: the sqlite variant's unconfigured-landing response has
status 302, not the 500 the claim requires of both variants. -/
theorem missing_landing_claim_cex :
    (Sqlite.handleClick "" "L1" "c1" "UA" "1.2.3.4" "T" (Except.ok ())).map
      (fun p => p.2.statusOf) = Except.ok 302 ∧
    (302 : Nat) ≠ 500 :=
  ⟨rfl, by decide⟩

/-- C5 (amended): the three stored event type strings of the flat-file
variant are exactly "click", "open" and "conv"; in particular the conversion
endpoint stores the string "conv", not "conversion". -/
theorem event_type_amended (lb l c ua ip ts : String) (r : Except String Unit) :
    (FlatFile.handleClick lb l c ua ip ts r).1.type = "click" ∧
    (FlatFile.handleOpen l c ua ip ts r).1.type = "open" ∧
    (FlatFile.handleConv l c ua ip ts r).1.type = "conv" ∧
    (FlatFile.handleClick lb l c ua ip ts r).1.type ∈ (["click", "open", "conv"] : List String) ∧
    (FlatFile.handleOpen l c ua ip ts r).1.type ∈ (["click", "open", "conv"] : List String) ∧
    (FlatFile.handleConv l c ua ip ts r).1.type ∈ (["click", "open", "conv"] : List String) := by
  refine ⟨rfl, rfl, rfl, ?_, ?_, ?_⟩ <;> simp only [List.mem_cons, List.mem_singleton]
  · exact Or.inl rfl
  · exact Or.inr (Or.inl rfl)
  · exact Or.inr (Or.inr (Or.inl rfl))

/-- C5 counterexample: the event stored by the conversion endpoint has type
"conv", which is none of the claimed enum values click, open, conversion. -/
theorem event_type_claim_cex :
    ¬ ((FlatFile.handleConv "L1" "c1" "UA" "1.2.3.4" "T" (Except.ok ())).1.type = "click" ∨
       (FlatFile.handleConv "L1" "c1" "UA" "1.2.3.4" "T" (Except.ok ())).1.type = "open" ∨
       (FlatFile.handleConv "L1" "c1" "UA" "1.2.3.4" "T" (Except.ok ())).1.type = "conversion") := by
  decide

/-- C6 (amended): the flat-file ipHash is the hex SHA-256 digest of the IP
truncated to 16 characters, and with the digest call abstracted its try/catch
returns "" on a digest failure; the sqlite hashIp is the full untruncated
64-character digest with no failure fallback. -/
theorem ip_hash_amended (ip : String) :
    FlatFile.ipHash ip = sliceTo (sha256hex ip) 16 ∧
    (FlatFile.ipHash ip).length = 16 ∧
    Sqlite.hashIp ip = sha256hex ip ∧
    (Sqlite.hashIp ip).length = 64 ∧
    (∀ digest e, digest ip = Except.error e → FlatFile.ipHashGuarded digest ip = "") ∧
    (∀ digest d, digest ip = Except.ok d → FlatFile.ipHashGuarded digest ip = sliceTo d 16) := by
  refine ⟨rfl, ipHash_length ip, rfl, sha256hex_length ip, ?_, ?_⟩
  · intro digest e h
    simp [FlatFile.ipHashGuarded, h]
  · intro digest d h
    simp [FlatFile.ipHashGuarded, h]

/-- Witness for C6's amended theorem at a concrete IP and failing digest. -/
theorem ip_hash_amended_witness :
    (FlatFile.ipHash "1.2.3.4").length = 16 ∧
    FlatFile.ipHashGuarded (fun _ => Except.error "boom") "1.2.3.4" = "" := by
  have h := ip_hash_amended "1.2.3.4"
  exact ⟨h.2.1, h.2.2.2.2.1 (fun _ => Except.error "boom") "boom" rfl⟩

/-- C6 counterexample: the sqlite hashIp of "1.2.3.4" is 64 characters long,
so it is not the digest truncated to any properly shorter fixed prefix
length, contrary to the claim that each variant stores a truncated digest. -/
theorem ip_hash_claim_cex :
    ¬ ∃ k, k < 64 ∧ Sqlite.hashIp "1.2.3.4" = sliceTo (sha256hex "1.2.3.4") k := by
  rintro ⟨k, hk, he⟩
  have h1 : (Sqlite.hashIp "1.2.3.4").length = 64 := sha256hex_length "1.2.3.4"
  have h2 : (sliceTo (sha256hex "1.2.3.4") k).length = min k 64 := by
    rw [sliceTo_length, sha256hex_length]
  rw [he, h2] at h1
  omega

/-- C7 (confirmed): readEvents returns the empty list on ENOENT and on an
empty file, so statsData renders three empty tables without error, while any
other read error is re-raised by readEvents and propagates through statsData
to the stats request. -/
theorem readEvents_enoent_empty_and_propagates
    (parse : String → Option Event) (msg : String) :
    FlatFile.readEvents parse (Except.error FlatFile.ReadErr.enoent) = Except.ok [] ∧
    FlatFile.statsData parse (Except.error FlatFile.ReadErr.enoent) = Except.ok ([], [], []) ∧
    FlatFile.readEvents parse (Except.ok "") = Except.ok [] ∧
    FlatFile.statsData parse (Except.ok "") = Except.ok ([], [], []) ∧
    FlatFile.readEvents parse (Except.error (FlatFile.ReadErr.other msg)) =
      Except.error (FlatFile.ReadErr.other msg) ∧
    FlatFile.statsData parse (Except.error (FlatFile.ReadErr.other msg)) =
      Except.error (FlatFile.ReadErr.other msg) :=
  ⟨rfl, rfl, rfl, rfl, rfl, rfl⟩

/-- C8 (confirmed): over any file content assembled from newline-free lines,
readEvents drops a line the parser rejects while returning the record of
every parseable nonempty line, so a malformed line neither aborts the read
nor drops other lines. -/
theorem readEvents_skips_malformed (parse : String → Option Event)
    (pre post : List String) (junk : String)
    (hpre : ∀ l ∈ pre, '\n' ∉ l.toList) (hpost : ∀ l ∈ post, '\n' ∉ l.toList)
    (hjunk : '\n' ∉ junk.toList) (hfail : parse junk = none) :
    FlatFile.readEvents parse (Except.ok (joinLines (pre ++ junk :: post))) =
      Except.ok (((pre ++ post).filter (fun l => l ≠ "")).filterMap parse) ∧
    FlatFile.readEvents parse (Except.ok (joinLines (pre ++ junk :: post))) =
      FlatFile.readEvents parse (Except.ok (joinLines (pre ++ post))) := by
  have hall : ∀ l ∈ pre ++ junk :: post, '\n' ∉ l.toList := by
    intro l hl
    rcases List.mem_append.mp hl with h | h
    · exact hpre l h
    · rcases List.mem_cons.mp h with rfl | h
      · exact hjunk
      · exact hpost l h
  have hsplit1 : splitLines (joinLines (pre ++ junk :: post)) = pre ++ junk :: post :=
    splitLines_joinLines _ (by simp) hall
  have hmid : FlatFile.parseLines parse (pre ++ junk :: post) =
      ((pre ++ post).filter (fun l => l ≠ "")).filterMap parse := by
    unfold FlatFile.parseLines
    by_cases hj : junk = ""
    · subst hj
      simp [List.filter_append, List.filter_cons]
    · simp [List.filter_append, List.filter_cons, List.filterMap_append, List.filterMap_cons,
        hj, hfail]
  have e1 : FlatFile.readEvents parse (Except.ok (joinLines (pre ++ junk :: post))) =
      Except.ok (((pre ++ post).filter (fun l => l ≠ "")).filterMap parse) := by
    show Except.ok (FlatFile.parseLines parse (splitLines (joinLines (pre ++ junk :: post)))) = _
    rw [hsplit1, hmid]
  refine ⟨e1, ?_⟩
  rw [e1]
  by_cases hpp : pre ++ post = []
  · rw [hpp]
    rfl
  · have hall2 : ∀ l ∈ pre ++ post, '\n' ∉ l.toList := by
      intro l hl
      rcases List.mem_append.mp hl with h | h
      · exact hpre l h
      · exact hpost l h
    have hsplit2 : splitLines (joinLines (pre ++ post)) = pre ++ post :=
      splitLines_joinLines _ hpp hall2
    show _ = Except.ok (FlatFile.parseLines parse (splitLines (joinLines (pre ++ post))))
    rw [hsplit2]
    rfl

/-- Witness for C8's theorem on a concrete store content with one malformed
line between two parseable ones. -/
theorem readEvents_skips_malformed_witness :
    FlatFile.readEvents sampleParse (Except.ok (joinLines (["good"] ++ "oops" :: ["", "good"]))) =
      Except.ok ((((["good"] ++ ["", "good"]) : List String).filter
        (fun l => l ≠ "")).filterMap sampleParse) ∧
    FlatFile.readEvents sampleParse (Except.ok (joinLines (["good"] ++ "oops" :: ["", "good"]))) =
      FlatFile.readEvents sampleParse (Except.ok (joinLines (["good"] ++ ["", "good"]))) :=
  readEvents_skips_malformed sampleParse ["good"] ["", "good"] "oops"
    (by decide) (by decide) (by decide) rfl

/-- C9 (confirmed): summarize is order-independent: permuting the event list
leaves the total count and unique-lead count of every campaign key unchanged,
and produces the same set of rows. -/
theorem summarize_perm_invariant (l l' : List Event) (h : l.Perm l') :
    (∀ c, FlatFile.totalFor l c = FlatFile.totalFor l' c ∧
          FlatFile.uniqueFor l c = FlatFile.uniqueFor l' c) ∧
    (∀ r, r ∈ FlatFile.summarize l ↔ r ∈ FlatFile.summarize l') := by
  refine ⟨fun c => ⟨totalFor_perm h c, uniqueFor_perm h c⟩, fun r => ?_⟩
  rw [mem_summarize, mem_summarize]
  constructor
  · rintro ⟨c, hc, rfl⟩
    refine ⟨c, (h.map FlatFile.eventKey).mem_iff.mp hc, ?_⟩
    rw [totalFor_perm h c, uniqueFor_perm h c]
  · rintro ⟨c, hc, rfl⟩
    refine ⟨c, (h.map FlatFile.eventKey).mem_iff.mpr hc, ?_⟩
    rw [totalFor_perm h c, uniqueFor_perm h c]

/-- Witness for C9's theorem on a two-event list and its swap. -/
theorem summarize_perm_invariant_witness :
    ({ campaign := "a_v1", total := 2, unique := 2 } : Row) ∈
        FlatFile.summarize [sampleEvent, sampleEventB] ↔
    ({ campaign := "a_v1", total := 2, unique := 2 } : Row) ∈
        FlatFile.summarize [sampleEventB, sampleEvent] :=
  (summarize_perm_invariant [sampleEvent, sampleEventB] [sampleEventB, sampleEvent]
    (List.Perm.swap sampleEventB sampleEvent [])).2 _

/-- C10 (confirmed): every row summarize produces has a total of at least
one, a unique count of at least one, and a unique count no larger than its
total. -/
theorem summarize_row_bounds (l : List Event) (r : Row) (h : r ∈ FlatFile.summarize l) :
    1 ≤ r.total ∧ 1 ≤ r.unique ∧ r.unique ≤ r.total := by
  rcases (mem_summarize l r).mp h with ⟨c, hc, rfl⟩
  rcases List.mem_map.mp hc with ⟨e, he, hek⟩
  have hef : e ∈ l.filter (fun e => FlatFile.eventKey e = c) :=
    List.mem_filter.mpr ⟨he, by simp [hek]⟩
  have htotal : 1 ≤ FlatFile.totalFor l c := List.length_pos_of_mem hef
  have hlead : e.lead_id ∈ FlatFile.leadsFor l c := List.mem_map.mpr ⟨e, hef, rfl⟩
  have hmem : e.lead_id ∈ (FlatFile.leadsFor l c).toFinset := List.mem_toFinset.mpr hlead
  have hunique : 1 ≤ FlatFile.uniqueFor l c := Finset.card_pos.mpr ⟨_, hmem⟩
  have hle : FlatFile.uniqueFor l c ≤ FlatFile.totalFor l c := by
    calc (FlatFile.leadsFor l c).toFinset.card
        ≤ (FlatFile.leadsFor l c).length := List.toFinset_card_le _
      _ = FlatFile.totalFor l c := by
          simp [FlatFile.leadsFor, FlatFile.totalFor]
  exact ⟨htotal, hunique, hle⟩

/-- Witness for C10's theorem on a concrete two-event list. -/
theorem summarize_row_bounds_witness :
    1 ≤ ({ campaign := "a_v1", total := 2, unique := 2 } : Row).total ∧
    1 ≤ ({ campaign := "a_v1", total := 2, unique := 2 } : Row).unique ∧
    ({ campaign := "a_v1", total := 2, unique := 2 } : Row).unique ≤
      ({ campaign := "a_v1", total := 2, unique := 2 } : Row).total :=
  summarize_row_bounds [sampleEvent, sampleEventB] _ (by decide)
